import Mathlib

/-
Verification of the canvas layout editor of the SharePoint
page clientsidewebpart add command (SpoPageClientSideWebPartAddCommand),
together with its option validation and the surrounding request chain.

The definitions below are a shallow embedding of the TypeScript source.
JavaScript numbers reaching this code are integers (modelled as Int),
optional CLI options are Option values, and JavaScript truthiness tests
are modelled explicitly (undefined and 0 are falsy for numbers; undefined
and the empty string are falsy for strings).
-/

/-- A JSON value, as produced by parsing a JSON string. -/
inductive JsValue where
  | null : JsValue
  | bool (b : Bool) : JsValue
  | num (n : Int) : JsValue
  | str (s : String) : JsValue
  | arr (xs : List JsValue) : JsValue
  | obj (fields : List (String × JsValue)) : JsValue

/-- Truthiness of an optional JavaScript number: undefined and 0 are falsy. -/
def intOptTruthy : Option Int → Bool
  | none => false
  | some n => decide (n ≠ 0)

/-- Truthiness of an optional JavaScript string: undefined and the empty
string are falsy. -/
def strOptTruthy : Option String → Bool
  | none => false
  | some s => !s.isEmpty

/-- The JavaScript expression `x || d` for an optional number x: the default
d is used when x is undefined or 0. -/
def jsOrInt : Option Int → Int → Int
  | none, d => d
  | some n, d => if n = 0 then d else n

/-- JavaScript array indexing `a[i]` for Int indices: negative indices (and
out-of-range ones) give undefined. -/
def jsGetList (l : List Int) (i : Int) : Option Int :=
  if i < 0 then none else l[i.toNat]?

/-- JavaScript `Array.prototype.findIndex`, success part: index of the first
element satisfying the predicate. -/
def jsFindIndexNat (p : α → Bool) : List α → Option Nat
  | [] => none
  | x :: xs => if p x then some 0 else (jsFindIndexNat p xs).map (· + 1)

/-- JavaScript `Array.prototype.findIndex`: -1 when no element matches. -/
def jsFindIndex (p : α → Bool) (l : List α) : Int :=
  match jsFindIndexNat p l with
  | none => -1
  | some i => (i : Int)

/-- The `position` object of a canvas control. All fields the algorithm
touches are integers. -/
structure Position where
  zoneIndex : Int
  sectionIndex : Int
  controlIndex : Int
  sectionFactor : Option Int
  layoutIndex : Option Int
deriving DecidableEq

/-- One entry of the CanvasContent1 array. Fields the algorithm never reads
(emphasis, pageSettingsSlice and other opaque payload members) are either
carried as `webPartData` or omitted. -/
structure Control where
  controlType : Option Int
  displayMode : Option Int
  id : Option JsValue
  position : Option Position
  webPartId : Option String
  webPartData : Option (List (String × JsValue))

/-- The web part instance produced by `getWebPart` (id = generated instance
id, webPartId = component id, webPartData = manifest-derived payload). -/
structure WebPart where
  id : Option JsValue
  webPartId : String
  webPartData : List (String × JsValue)

/-- The page-settings marker control, i.e. the single entry of the default
CanvasContent1 value "[{controlType:0, pageSettingsSlice:...}]" a page
without content parses to. -/
def pageMarker : Control :=
  { controlType := some 0, displayMode := none, id := none,
    position := none, webPartId := none, webPartData := none }

/-- The synthetic one-column default section added when the canvas only
contains the page-settings marker (source lines building defaultSection). -/
def defaultSection : Control :=
  { controlType := none, displayMode := some 2, id := none,
    position := some { zoneIndex := 1, sectionIndex := 1, controlIndex := 1,
                       sectionFactor := some 12, layoutIndex := some 1 },
    webPartId := none, webPartData := none }

/-- A dummy control used to make list lookups total; it is only produced at
indices the source has already proven in range via findIndex. -/
def emptyControl : Control :=
  { controlType := none, displayMode := none, id := none,
    position := none, webPartId := none, webPartData := none }

/-- Source: `if (canvasContent.length === 1) canvasContent.unshift(defaultSection)` -
a canvas holding only the page-settings marker gets the synthetic default
section prepended. -/
def ensureDefaultSection (cc : List Control) : List Control :=
  if cc.length = 1 then defaultSection :: cc else cc

/-- The predicate of the findIndex and filter calls: the control carries a
position whose zoneIndex is the resolved zone and whose sectionIndex is the
requested column. The zone is an Option because `zoneIndices[section - 1]`
can be undefined in the source. -/
def matchesCell (zi : Option Int) (col : Int) (c : Control) : Bool :=
  match c.position with
  | some p => decide (zi = some p.zoneIndex) && decide (p.sectionIndex = col)
  | none => false

/-- The controlIndex a column member carries; column members always have a
position, the 0 default is never reached from the source paths. -/
def ctrlIdxOf (c : Control) : Int :=
  match c.position with
  | some p => p.controlIndex
  | none => 0

/-- The comparison `c.position.controlIndex === controlIndex` of the inner
findIndex calls, where the searched-for value may be undefined. -/
def ctrlIdxMatches (target : Option Int) (c : Control) : Bool :=
  match c.position with
  | some p => decide (target = some p.controlIndex)
  | none => false

/-- The assignment `w.position.controlIndex = i` on a control. -/
def setCtrlIdx (c : Control) (i : Int) : Control :=
  { c with position := c.position.map (fun p => { p with controlIndex := i }) }

/-- First-occurrence deduplication, as the source's
`filter((value, index, array) => array.indexOf(value) === index)`. -/
def dedupFirstAux (seen : List Int) : List Int → List Int
  | [] => []
  | x :: xs =>
    if x ∈ seen then dedupFirstAux seen xs
    else x :: dedupFirstAux (x :: seen) xs

/-- First-occurrence deduplication of a list of numbers. -/
def dedupFirst (l : List Int) : List Int := dedupFirstAux [] l

/-- Source lines collecting the distinct zoneIndex values: controls with a
position, mapped to zoneIndex, first-occurrence deduplicated, then sorted
ascending by the numeric comparator. -/
def zoneIndicesOf (cc : List Control) : List Int :=
  List.insertionSort (· ≤ ·)
    (dedupFirst (cc.filterMap (fun c => c.position.map (fun p => p.zoneIndex))))

/-- Errors the layout editing step can reject with. `invalidSection` carries
the defaulted section number (the source interpolates the local `section`),
`invalidColumn` carries the raw column option (the source interpolates
`args.options.column`, which prints as undefined when unset). -/
inductive EditorError where
  | invalidSection (sect : Int) : EditorError
  | invalidColumn (optColumn : Option Int) : EditorError
deriving DecidableEq

/-- Section resolution (source lines computing `section` and `zoneIndex`):
default the section option to the count of distinct zones, reject when it
exceeds that count, otherwise index into the sorted distinct zone list. -/
def resolveSection (cc : List Control) (optSection : Option Int) :
    Except EditorError (Option Int) :=
  let zoneIndices := zoneIndicesOf cc
  let sect : Int := jsOrInt optSection (zoneIndices.length : Int)
  if (zoneIndices.length : Int) < sect then Except.error (EditorError.invalidSection sect)
  else Except.ok (jsGetList zoneIndices (sect - 1))

/-- Column resolution (source lines computing `controlIndex`): default the
column option to 1, find the first control at the resolved zone with that
sectionIndex, reject when none exists. -/
def resolveColumn (cc : List Control) (zi : Option Int) (optColumn : Option Int) :
    Except EditorError Nat :=
  let column : Int := jsOrInt optColumn 1
  match jsFindIndexNat (matchesCell zi column) cc with
  | none => Except.error (EditorError.invalidColumn optColumn)
  | some i => Except.ok i

/-- JavaScript `splice(start, 0, x)`: insert x at the clamped start position
(negative starts count from the end, clamped at 0; large starts append). -/
def jsSpliceInsert (l : List Control) (s : Int) (x : Control) : List Control :=
  let n : Nat := if s < 0 then l.length - (-s).toNat else min s.toNat l.length
  l.take n ++ x :: l.drop n

/-- JavaScript `splice(i, 1, x)` for an in-range i: replace the element at i. -/
def jsReplaceAt (l : List Control) (i : Nat) (x : Control) : List Control :=
  l.take i ++ x :: l.drop (i + 1)

/-- The controls of the (zone, column) cell, in canvas order. -/
def colControls (zi : Option Int) (col : Int) (cc : List Control) : List Control :=
  cc.filter (matchesCell zi col)

/-- The controlIndex values of the cell's controls, in canvas order. -/
def colIdxs (zi : Option Int) (col : Int) (cc : List Control) : List Int :=
  (colControls zi col cc).map ctrlIdxOf

/-- Source: the cell's controlIndex values sorted ascending
(`.map(c => c.position.controlIndex).sort((a, b) => a - b)`). -/
def sortedColIdxs (zi : Option Int) (col : Int) (cc : List Control) : List Int :=
  List.insertionSort (· ≤ ·) (colIdxs zi col cc)

/-- The renumbering pass (source: `webPartsInColumn.forEach(w =>
w.position.controlIndex = i++)` starting from 1): walk the canvas and give
the cell's members consecutive controlIndex values. -/
def renumberColumn (zi : Option Int) (col : Int) (i : Int) : List Control → List Control
  | [] => []
  | c :: cs =>
    if matchesCell zi col c then setCtrlIdx c i :: renumberColumn zi col (i + 1) cs
    else c :: renumberColumn zi col i cs

/-- The occupied-column branch of the insertion (source lines 260-306 of the
command): pick the insertion point from the sorted controlIndex list - after
the control holding the largest value when the order option is falsy or
larger than the cell population, before the control holding the value at
rank order otherwise - then renumber the cell from 1. -/
def insertIntoOccupiedColumn (cc : List Control) (zi : Option Int) (col : Int)
    (optOrder : Option Int) (wpc : Control) : List Control :=
  let controlIndices := sortedColIdxs zi col cc
  let inserted :=
    if !intOptTruthy optOrder || decide ((controlIndices.length : Int) < jsOrInt optOrder 0) then
      let target := controlIndices.getLast?
      let webPartIndex : Int :=
        jsFindIndex (fun c => matchesCell zi col c && ctrlIdxMatches target c) cc
      jsSpliceInsert cc (webPartIndex + 1) wpc
    else
      let target := jsGetList controlIndices (jsOrInt optOrder 0 - 1)
      let webPartIndex : Int :=
        jsFindIndex (fun c => matchesCell zi col c && ctrlIdxMatches target c) cc
      jsSpliceInsert cc webPartIndex wpc
  renumberColumn zi col 1 inserted

/-- The control built for the new web part (source: extend of the literal
with the web part): controlType 3, displayMode 2, the web part identity and
payload, and a copy of the anchor's position. -/
def mkWebPartControl (wp : WebPart) (anchor : Control) : Control :=
  { controlType := some 3, displayMode := some 2, id := wp.id,
    position := anchor.position, webPartId := some wp.webPartId,
    webPartData := some wp.webPartData }

/-- The complete layout mutation of the command's third then-step: ensure a
default section, resolve section and column, then either replace an empty
column placeholder (controlIndex forced to 1) or run the occupied-column
insertion. -/
def editLayout (cc0 : List Control) (optSection optColumn optOrder : Option Int)
    (wp : WebPart) : Except EditorError (List Control) :=
  let cc := ensureDefaultSection cc0
  match resolveSection cc optSection with
  | Except.error e => Except.error e
  | Except.ok zoneIndex =>
    let column : Int := jsOrInt optColumn 1
    match resolveColumn cc zoneIndex optColumn with
    | Except.error e => Except.error e
    | Except.ok controlIdx =>
      let control := cc.getD controlIdx emptyControl
      let webPartControl := mkWebPartControl wp control
      if intOptTruthy control.controlType then
        Except.ok (insertIntoOccupiedColumn cc zoneIndex column optOrder webPartControl)
      else
        Except.ok (jsReplaceAt cc controlIdx (setCtrlIdx webPartControl 1))

/-- The ascending integer interval of length n starting at i, used to state
the contiguity invariant. -/
def intRangeFrom (i : Int) : Nat → List Int
  | 0 => []
  | n + 1 => i :: intRangeFrom (i + 1) n

/-! Part: Helper lemmas about the JavaScript-style list operations -/

theorem jsFindIndexNat_eq_none_iff (p : α → Bool) (l : List α) :
    jsFindIndexNat p l = none ↔ ∀ x ∈ l, p x = false := by
  induction l with
  | nil => simp [jsFindIndexNat]
  | cons a l ih =>
    cases hpa : p a with
    | true => simp [jsFindIndexNat, hpa]
    | false => simp [jsFindIndexNat, hpa, ih]

theorem jsFindIndexNat_some_spec {p : α → Bool} :
    ∀ {l : List α} {i : Nat}, jsFindIndexNat p l = some i →
      ∃ x, l[i]? = some x ∧ p x = true
        ∧ ∀ j, j < i → ∀ y, l[j]? = some y → p y = false := by
  intro l
  induction l with
  | nil => intro i h; simp [jsFindIndexNat] at h
  | cons a l ih =>
    intro i h
    cases hpa : p a with
    | true =>
      simp only [jsFindIndexNat, hpa, if_true] at h
      have hi : i = 0 := by
        cases h
        rfl
      subst hi
      exact ⟨a, by simp, hpa, fun j hj => by omega⟩
    | false =>
      simp only [jsFindIndexNat, hpa, Bool.false_eq_true, if_false,
        Option.map_eq_some'] at h
      obtain ⟨i0, hi0, hi⟩ := h
      obtain ⟨x, hx, hpx, hfirst⟩ := ih hi0
      subst hi
      refine ⟨x, by simpa using hx, hpx, ?_⟩
      intro j hj y hy
      match j with
      | 0 =>
        have : y = a := by
          simp only [List.getElem?_cons_zero, Option.some.injEq] at hy
          exact hy.symm
        subst this
        exact hpa
      | j0 + 1 =>
        simp only [List.getElem?_cons_succ] at hy
        exact hfirst j0 (by omega) y hy

theorem jsFindIndexNat_isSome_of_mem {p : α → Bool} {l : List α} {x : α}
    (hx : x ∈ l) (hp : p x = true) : ∃ i, jsFindIndexNat p l = some i := by
  induction l with
  | nil => simp at hx
  | cons a l ih =>
    cases hpa : p a with
    | true => exact ⟨0, by simp [jsFindIndexNat, hpa]⟩
    | false =>
      rcases List.mem_cons.1 hx with h | h
      · subst h
        rw [hpa] at hp
        cases hp
      · obtain ⟨i, hi⟩ := ih h
        exact ⟨i + 1, by simp [jsFindIndexNat, hpa, hi]⟩

theorem mem_intRangeFrom (v : Int) : ∀ (n : Nat) (i : Int),
    v ∈ intRangeFrom i n ↔ i ≤ v ∧ v < i + n := by
  intro n
  induction n with
  | zero => intro i; simp [intRangeFrom]
  | succ m ih =>
    intro i
    simp only [intRangeFrom, List.mem_cons, ih (i + 1)]
    constructor
    · intro h
      rcases h with h | h
      · subst h
        refine ⟨le_refl v, ?_⟩
        push_cast
        omega
      · refine ⟨by omega, ?_⟩
        push_cast at h ⊢
        omega
    · intro h
      by_cases hv : v = i
      · exact Or.inl hv
      · right
        push_cast at h ⊢
        omega

theorem mem_dedupFirstAux (v : Int) :
    ∀ (l seen : List Int), v ∈ dedupFirstAux seen l ↔ v ∈ l ∧ v ∉ seen := by
  intro l
  induction l with
  | nil => intro seen; simp [dedupFirstAux]
  | cons x xs ih =>
    intro seen
    by_cases hx : x ∈ seen
    · rw [dedupFirstAux.eq_2, if_pos hx, ih]
      constructor
      · intro h
        exact ⟨List.mem_cons_of_mem _ h.1, h.2⟩
      · intro h
        rcases List.mem_cons.1 h.1 with h1 | h1
        · subst h1
          exact absurd hx h.2
        · exact ⟨h1, h.2⟩
    · rw [dedupFirstAux.eq_2, if_neg hx]
      constructor
      · intro h
        rcases List.mem_cons.1 h with h1 | h1
        · subst h1
          exact ⟨List.mem_cons_self _ _, hx⟩
        · have h2 := (ih (x :: seen)).1 h1
          refine ⟨List.mem_cons_of_mem _ h2.1, fun hm => ?_⟩
          exact h2.2 (List.mem_cons_of_mem _ hm)
      · intro h
        rcases List.mem_cons.1 h.1 with h1 | h1
        · subst h1
          exact List.mem_cons_self _ _
        · by_cases hvx : v = x
          · subst hvx
            exact List.mem_cons_self _ _
          · refine List.mem_cons_of_mem _ ((ih (x :: seen)).2 ⟨h1, fun hm => ?_⟩)
            rcases List.mem_cons.1 hm with h2 | h2
            · exact hvx h2
            · exact h.2 h2

theorem nodup_dedupFirstAux : ∀ (l seen : List Int), (dedupFirstAux seen l).Nodup := by
  intro l
  induction l with
  | nil => intro seen; simp [dedupFirstAux]
  | cons x xs ih =>
    intro seen
    by_cases hx : x ∈ seen
    · rw [dedupFirstAux.eq_2, if_pos hx]
      exact ih seen
    · rw [dedupFirstAux.eq_2, if_neg hx]
      refine List.nodup_cons.2 ⟨fun hm => ?_, ih _⟩
      have := (mem_dedupFirstAux x xs (x :: seen)).1 hm
      exact this.2 (List.mem_cons_self x seen)

theorem mem_of_getLast?_eq {l : List Int} {m : Int} (h : l.getLast? = some m) : m ∈ l := by
  obtain ⟨hne, heq⟩ := List.mem_getLast?_eq_getLast (l := l) (x := m)
    (by simp [h, Option.mem_def])
  exact heq ▸ List.getLast_mem hne

theorem sorted_le_getLast :
    ∀ {l : List Int}, l.Sorted (· ≤ ·) → ∀ {m : Int}, l.getLast? = some m →
      ∀ x ∈ l, x ≤ m := by
  intro l
  induction l with
  | nil =>
    intro _ m h
    simp at h
  | cons a t ih =>
    intro hs m hm x hx
    cases t with
    | nil =>
      have hma : a = m := by
        simpa [List.getLast?] using hm
      have hxa : x = a := by
        simpa using hx
      omega
    | cons b t2 =>
      rw [List.getLast?_cons_cons] at hm
      have hcons := (List.sorted_cons).1 hs
      rcases List.mem_cons.1 hx with h | h
      · subst h
        have hb : b ≤ m := ih hcons.2 hm b (List.mem_cons_self b t2)
        have hab : x ≤ b := hcons.1 b (List.mem_cons_self b t2)
        omega
      · exact ih hcons.2 hm x h

/-! Part: Lemmas about the canvas operations -/

theorem matchesCell_setCtrlIdx (zi : Option Int) (col : Int) (c : Control) (i : Int) :
    matchesCell zi col (setCtrlIdx c i) = matchesCell zi col c := by
  cases c with
  | mk ct dm cid pos wpid wpd =>
    cases pos with
    | none => rfl
    | some p => rfl

theorem position_isSome_of_matchesCell {zi : Option Int} {col : Int} {c : Control}
    (h : matchesCell zi col c = true) : c.position.isSome := by
  cases hp : c.position with
  | none =>
    rw [matchesCell, hp] at h
    cases h
  | some p => rfl

theorem ctrlIdxOf_setCtrlIdx (c : Control) (i : Int) (h : c.position.isSome) :
    ctrlIdxOf (setCtrlIdx c i) = i := by
  cases hp : c.position with
  | none =>
    rw [hp] at h
    cases h
  | some p =>
    cases c with
    | mk ct dm cid pos wpid wpd =>
      cases pos with
      | none => cases hp
      | some q => rfl

theorem matchesCell_mkWebPartControl (zi : Option Int) (col : Int) (wp : WebPart)
    (anchor : Control) :
    matchesCell zi col (mkWebPartControl wp anchor) = matchesCell zi col anchor := by
  cases hp : anchor.position with
  | none => rw [matchesCell, matchesCell, mkWebPartControl, hp]
  | some p => rw [matchesCell, matchesCell, mkWebPartControl, hp]

theorem renumberColumn_spec (zi : Option Int) (col : Int) :
    ∀ (L : List Control) (i : Int),
      ((renumberColumn zi col i L).filter (matchesCell zi col)).map ctrlIdxOf
        = intRangeFrom i (L.filter (matchesCell zi col)).length := by
  intro L
  induction L with
  | nil =>
    intro i
    simp [renumberColumn, intRangeFrom]
  | cons c cs ih =>
    intro i
    cases h : matchesCell zi col c with
    | true =>
      rw [renumberColumn, if_pos h, List.filter_cons_of_pos (by rw [matchesCell_setCtrlIdx]; exact h),
        List.filter_cons_of_pos h]
      simp only [List.map_cons, List.length_cons, intRangeFrom]
      rw [ctrlIdxOf_setCtrlIdx c i (position_isSome_of_matchesCell h), ih (i + 1)]
    | false =>
      rw [renumberColumn, if_neg (by simp [h]), List.filter_cons_of_neg (by simp [h]),
        List.filter_cons_of_neg (by simp [h])]
      exact ih i

theorem jsSpliceInsert_filter_length (p : Control → Bool) (l : List Control) (s : Int)
    (x : Control) (hx : p x = true) :
    ((jsSpliceInsert l s x).filter p).length = (l.filter p).length + 1 := by
  rw [jsSpliceInsert]
  conv_rhs => rw [← List.take_append_drop
    (if s < 0 then l.length - (-s).toNat else min s.toNat l.length) l]
  rw [List.filter_append, List.filter_append, List.filter_cons_of_pos hx]
  simp [List.length_append]
  omega

theorem jsSpliceInsert_of_nonneg (l : List Control) (i : Nat) (x : Control)
    (h : i ≤ l.length) : jsSpliceInsert l (i : Int) x = l.take i ++ x :: l.drop i := by
  rw [jsSpliceInsert]
  have h1 : ¬((i : Int) < 0) := by omega
  rw [if_neg h1]
  have h2 : (i : Int).toNat = i := Int.toNat_ofNat i
  rw [h2, Nat.min_eq_left h]

theorem resolveColumn_ok_anchor {cc : List Control} {zi : Option Int} {optC : Option Int}
    {ai : Nat} (h : resolveColumn cc zi optC = Except.ok ai) :
    ∃ a, cc[ai]? = some a ∧ matchesCell zi (jsOrInt optC 1) a = true
      ∧ cc.getD ai emptyControl = a
      ∧ ∀ j, j < ai → ∀ b, cc[j]? = some b → matchesCell zi (jsOrInt optC 1) b = false := by
  simp only [resolveColumn] at h
  cases hf : jsFindIndexNat (matchesCell zi (jsOrInt optC 1)) cc with
  | none =>
    rw [hf] at h
    cases h
  | some i =>
    rw [hf] at h
    simp only [Except.ok.injEq] at h
    subst h
    obtain ⟨x, hx, hpx, hfirst⟩ := jsFindIndexNat_some_spec hf
    refine ⟨x, hx, hpx, ?_, hfirst⟩
    rw [List.getD_eq_getElem?_getD, hx]
    rfl

theorem editLayout_occupied {cc0 : List Control} {optS optC optO : Option Int}
    {wp : WebPart} {zi : Option Int} {ai : Nat} {L2 : List Control}
    (hsec : resolveSection (ensureDefaultSection cc0) optS = Except.ok zi)
    (hcol : resolveColumn (ensureDefaultSection cc0) zi optC = Except.ok ai)
    (hocc : intOptTruthy ((ensureDefaultSection cc0).getD ai emptyControl).controlType = true)
    (hrun : editLayout cc0 optS optC optO wp = Except.ok L2) :
    L2 = insertIntoOccupiedColumn (ensureDefaultSection cc0) zi (jsOrInt optC 1) optO
          (mkWebPartControl wp ((ensureDefaultSection cc0).getD ai emptyControl)) := by
  simp only [editLayout] at hrun
  rw [hsec] at hrun
  simp only [] at hrun
  rw [hcol] at hrun
  simp only [hocc, if_true, Except.ok.injEq] at hrun
  exact hrun.symm

theorem editLayout_empty {cc0 : List Control} {optS optC optO : Option Int}
    {wp : WebPart} {zi : Option Int} {ai : Nat}
    (hsec : resolveSection (ensureDefaultSection cc0) optS = Except.ok zi)
    (hcol : resolveColumn (ensureDefaultSection cc0) zi optC = Except.ok ai)
    (hocc : intOptTruthy ((ensureDefaultSection cc0).getD ai emptyControl).controlType = false) :
    editLayout cc0 optS optC optO wp =
      Except.ok (jsReplaceAt (ensureDefaultSection cc0) ai
        (setCtrlIdx (mkWebPartControl wp ((ensureDefaultSection cc0).getD ai emptyControl)) 1)) := by
  simp only [editLayout]
  rw [hsec]
  simp only []
  rw [hcol]
  simp only [hocc, Bool.false_eq_true, if_false]

theorem ctrlIdxMatches_self {zi : Option Int} {col : Int} {c : Control}
    (h : matchesCell zi col c = true) :
    ctrlIdxMatches (some (ctrlIdxOf c)) c = true := by
  cases hp : c.position with
  | none =>
    rw [matchesCell, hp] at h
    cases h
  | some p => simp [ctrlIdxMatches, ctrlIdxOf, hp]

theorem ctrlIdxOf_of_matches {t : Option Int} {c : Control}
    (h : ctrlIdxMatches t c = true) : t = some (ctrlIdxOf c) := by
  cases hp : c.position with
  | none => simp [ctrlIdxMatches, hp] at h
  | some p =>
    rw [ctrlIdxMatches, hp] at h
    rw [ctrlIdxOf, hp]
    exact of_decide_eq_true h

theorem findIndex_of_colIdx_mem {zi : Option Int} {col : Int} {cc : List Control} {v : Int}
    (hv : v ∈ colIdxs zi col cc) :
    ∃ i x, cc[i]? = some x ∧ matchesCell zi col x = true ∧ ctrlIdxOf x = v
      ∧ jsFindIndexNat (fun c => matchesCell zi col c && ctrlIdxMatches (some v) c) cc = some i
      ∧ i < cc.length := by
  rw [colIdxs, colControls] at hv
  obtain ⟨b, hbf, hbv⟩ := List.mem_map.1 hv
  have hbcc := List.mem_filter.1 hbf
  have hpredb : (matchesCell zi col b && ctrlIdxMatches (some v) b) = true := by
    rw [Bool.and_eq_true]
    refine ⟨hbcc.2, ?_⟩
    rw [← hbv]
    exact ctrlIdxMatches_self hbcc.2
  obtain ⟨i, hi⟩ := jsFindIndexNat_isSome_of_mem
    (p := fun c => matchesCell zi col c && ctrlIdxMatches (some v) c) hbcc.1 hpredb
  obtain ⟨x, hx, hpx, hfirst⟩ := jsFindIndexNat_some_spec hi
  rw [Bool.and_eq_true] at hpx
  have hvx : v = ctrlIdxOf x := by
    have h2 := ctrlIdxOf_of_matches hpx.2
    simpa using h2
  refine ⟨i, x, hx, hpx.1, hvx.symm, hi, ?_⟩
  exact (List.getElem?_eq_some.1 hx).1

theorem insertIntoOccupiedColumn_is_renumbered_splice (cc : List Control) (zi : Option Int)
    (col : Int) (optOrder : Option Int) (wpc : Control) :
    ∃ s : Int, insertIntoOccupiedColumn cc zi col optOrder wpc
      = renumberColumn zi col 1 (jsSpliceInsert cc s wpc) := by
  simp only [insertIntoOccupiedColumn]
  split
  · exact ⟨_, rfl⟩
  · exact ⟨_, rfl⟩

/-! Part: Sample data used in concrete scenarios and witnesses -/

/-- A position at zone z, column s, controlIndex i, with the default section
factor and layout index. -/
def samplePos (z s i : Int) : Position :=
  { zoneIndex := z, sectionIndex := s, controlIndex := i, sectionFactor := some 12,
    layoutIndex := some 1 }

/-- An occupied web-part control at section 1, column 1, with controlIndex i. -/
def sampleCtrl (i : Int) : Control :=
  { controlType := some 3, displayMode := some 2, id := none,
    position := some (samplePos 1 1 i), webPartId := some ("w"), webPartData := none }

/-- A layout whose single column holds two web parts with controlIndex 1 and 2. -/
def sampleLayout : List Control := [pageMarker, sampleCtrl 1, sampleCtrl 2]

/-- A sample web part instance. -/
def sampleWebPart : WebPart :=
  { id := some (JsValue.str ("inst-1")), webPartId := "comp-1", webPartData := [] }

/-! Part: Claim theorems -/

/-- Claim C1: for every layout and every insertion of a new control into an
occupied column (the resolved anchor control has a truthy controlType), the
controlIndex values of the controls sharing the target (zoneIndex,
sectionIndex) pair after the insert are exactly the contiguous block 1..k,
where k is the number of controls previously in that column plus 1. -/
theorem claim1_contiguity_after_insert (cc0 : List Control)
    (optS optC optO : Option Int) (wp : WebPart) (zi : Option Int) (ai : Nat)
    (L2 : List Control)
    (hsec : resolveSection (ensureDefaultSection cc0) optS = Except.ok zi)
    (hcol : resolveColumn (ensureDefaultSection cc0) zi optC = Except.ok ai)
    (hocc : intOptTruthy ((ensureDefaultSection cc0).getD ai emptyControl).controlType = true)
    (hrun : editLayout cc0 optS optC optO wp = Except.ok L2) :
    ((L2.filter (matchesCell zi (jsOrInt optC 1))).map ctrlIdxOf
        = intRangeFrom 1
            (((ensureDefaultSection cc0).filter (matchesCell zi (jsOrInt optC 1))).length + 1))
    ∧ ∀ v : Int,
        v ∈ (L2.filter (matchesCell zi (jsOrInt optC 1))).map ctrlIdxOf
          ↔ 1 ≤ v ∧
            v ≤ ((((ensureDefaultSection cc0).filter (matchesCell zi (jsOrInt optC 1))).length : Int) + 1) := by
  have hL2 := editLayout_occupied hsec hcol hocc hrun
  obtain ⟨a, ha, hma, hgd, _⟩ := resolveColumn_ok_anchor hcol
  have hwpc : matchesCell zi (jsOrInt optC 1)
      (mkWebPartControl wp ((ensureDefaultSection cc0).getD ai emptyControl)) = true := by
    rw [matchesCell_mkWebPartControl, hgd]
    exact hma
  obtain ⟨s, hs⟩ := insertIntoOccupiedColumn_is_renumbered_splice
    (ensureDefaultSection cc0) zi (jsOrInt optC 1) optO
    (mkWebPartControl wp ((ensureDefaultSection cc0).getD ai emptyControl))
  have hmain : (L2.filter (matchesCell zi (jsOrInt optC 1))).map ctrlIdxOf
      = intRangeFrom 1
          (((ensureDefaultSection cc0).filter (matchesCell zi (jsOrInt optC 1))).length + 1) := by
    rw [hL2, hs, renumberColumn_spec, jsSpliceInsert_filter_length _ _ _ _ hwpc]
  refine ⟨hmain, fun v => ?_⟩
  rw [hmain, mem_intRangeFrom]
  push_cast
  omega

/-- Witness for claim C1: inserting into the sample two-control column gives
the contiguous controlIndex block 1..3. -/
theorem claim1_contiguity_after_insert_witness :
    ∃ L2, editLayout sampleLayout none none none sampleWebPart = Except.ok L2
      ∧ (L2.filter (matchesCell (some 1) (jsOrInt none 1))).map ctrlIdxOf
          = intRangeFrom 1
              (((ensureDefaultSection sampleLayout).filter (matchesCell (some 1) (jsOrInt none 1))).length + 1) := by
  refine ⟨_, rfl, ?_⟩
  exact (claim1_contiguity_after_insert sampleLayout none none none sampleWebPart
    (some 1) 1 _ rfl rfl rfl rfl).1

/-- Claim C2: inserting into an occupied column places the new control
immediately after the control holding the highest controlIndex when the
order option is unset or exceeds the column population, and immediately
before the control whose controlIndex sits at rank order of the
ascending-sorted controlIndex list otherwise; afterwards the column is
renumbered from 1. -/
theorem claim2_insert_position (cc0 : List Control) (optS optC optO : Option Int)
    (wp : WebPart) (zi : Option Int) (ai : Nat) (L2 : List Control)
    (hsec : resolveSection (ensureDefaultSection cc0) optS = Except.ok zi)
    (hcol : resolveColumn (ensureDefaultSection cc0) zi optC = Except.ok ai)
    (hocc : intOptTruthy ((ensureDefaultSection cc0).getD ai emptyControl).controlType = true)
    (hrun : editLayout cc0 optS optC optO wp = Except.ok L2) :
    ((optO = none ∨ (∃ o : Int, optO = some o
          ∧ ((colIdxs zi (jsOrInt optC 1) (ensureDefaultSection cc0)).length : Int) < o)) →
      ∃ i a, (ensureDefaultSection cc0)[i]? = some a
        ∧ matchesCell zi (jsOrInt optC 1) a = true
        ∧ ctrlIdxOf a ∈ colIdxs zi (jsOrInt optC 1) (ensureDefaultSection cc0)
        ∧ (∀ v ∈ colIdxs zi (jsOrInt optC 1) (ensureDefaultSection cc0), v ≤ ctrlIdxOf a)
        ∧ L2 = renumberColumn zi (jsOrInt optC 1) 1
            ((ensureDefaultSection cc0).take (i + 1)
              ++ mkWebPartControl wp ((ensureDefaultSection cc0).getD ai emptyControl)
                :: (ensureDefaultSection cc0).drop (i + 1)))
    ∧ (∀ o : Int, optO = some o → 1 ≤ o
        → o ≤ ((colIdxs zi (jsOrInt optC 1) (ensureDefaultSection cc0)).length : Int) →
      ∃ i a, (ensureDefaultSection cc0)[i]? = some a
        ∧ matchesCell zi (jsOrInt optC 1) a = true
        ∧ (sortedColIdxs zi (jsOrInt optC 1) (ensureDefaultSection cc0))[(o - 1).toNat]?
            = some (ctrlIdxOf a)
        ∧ L2 = renumberColumn zi (jsOrInt optC 1) 1
            ((ensureDefaultSection cc0).take i
              ++ mkWebPartControl wp ((ensureDefaultSection cc0).getD ai emptyControl)
                :: (ensureDefaultSection cc0).drop i)) := by
  have hL2 := editLayout_occupied hsec hcol hocc hrun
  obtain ⟨a0, ha0, hma0, hgd0, _⟩ := resolveColumn_ok_anchor hcol
  set cc := ensureDefaultSection cc0 with hccdef
  set col := jsOrInt optC 1 with hcoldef
  set wpc := mkWebPartControl wp (cc.getD ai emptyControl) with hwpcdef
  have hperm : List.Perm (sortedColIdxs zi col cc) (colIdxs zi col cc) :=
    List.perm_insertionSort _ _
  have hlen : (sortedColIdxs zi col cc).length = (colIdxs zi col cc).length :=
    hperm.length_eq
  have hsorted : (sortedColIdxs zi col cc).Sorted (· ≤ ·) :=
    List.sorted_insertionSort _ _
  have hanchor_mem : a0 ∈ cc := by
    obtain ⟨hlt, hget⟩ := List.getElem?_eq_some.1 ha0
    exact hget ▸ List.getElem_mem hlt
  have hmem_col : ctrlIdxOf a0 ∈ colIdxs zi col cc := by
    rw [colIdxs, colControls]
    exact List.mem_map_of_mem _ (List.mem_filter.2 ⟨hanchor_mem, hma0⟩)
  have hcol_pos : 0 < (colIdxs zi col cc).length := List.length_pos_of_mem hmem_col
  constructor
  · -- append branch: order falsy or larger than the column population
    intro hord
    cases hlast : (sortedColIdxs zi col cc).getLast? with
    | none =>
      rw [List.getLast?_eq_none_iff] at hlast
      rw [← hlen, hlast] at hcol_pos
      simp at hcol_pos
    | some m =>
      have hmmem : m ∈ colIdxs zi col cc := hperm.mem_iff.1 (mem_of_getLast?_eq hlast)
      have hmax : ∀ v ∈ colIdxs zi col cc, v ≤ m := fun v hv =>
        sorted_le_getLast hsorted hlast v (hperm.mem_iff.2 hv)
      obtain ⟨i, x, hx, hmx, hxv, hfind, hilt⟩ := findIndex_of_colIdx_mem hmmem
      have hcond : (!intOptTruthy optO
          || decide (((sortedColIdxs zi col cc).length : Int) < jsOrInt optO 0)) = true := by
        rcases hord with h | ⟨o, ho, hgt⟩
        · rw [h]
          rfl
        · rw [ho]
          have ho0 : o ≠ 0 := by omega
          simp only [jsOrInt, if_neg ho0, hlen, Bool.or_eq_true, decide_eq_true_eq]
          right
          omega
      have hstep : insertIntoOccupiedColumn cc zi col optO wpc
          = renumberColumn zi col 1 (jsSpliceInsert cc
              (jsFindIndex (fun c => matchesCell zi col c
                && ctrlIdxMatches ((sortedColIdxs zi col cc).getLast?) c) cc + 1) wpc) := by
        simp only [insertIntoOccupiedColumn]
        rw [if_pos hcond]
      have hfi : jsFindIndex (fun c => matchesCell zi col c
          && ctrlIdxMatches ((sortedColIdxs zi col cc).getLast?) c) cc = (i : Int) := by
        rw [jsFindIndex, hlast, hfind]
      refine ⟨i, x, hx, hmx, hxv ▸ hmmem, hxv ▸ hmax, ?_⟩
      rw [hL2, hstep, hfi]
      have : ((i : Int) + 1) = ((i + 1 : Nat) : Int) := by push_cast; ring
      rw [this, jsSpliceInsert_of_nonneg cc (i + 1) wpc (by omega)]
  · -- in-place branch: 1 <= order <= column population
    intro o ho h1 h2
    have holen : (o - 1).toNat < (sortedColIdxs zi col cc).length := by
      rw [hlen]
      omega
    have htarget : jsGetList (sortedColIdxs zi col cc) (jsOrInt optO 0 - 1)
        = some ((sortedColIdxs zi col cc)[(o - 1).toNat]) := by
      rw [ho]
      have ho0 : o ≠ 0 := by omega
      rw [jsOrInt, if_neg ho0, jsGetList, if_neg (by omega)]
      exact List.getElem?_eq_getElem holen
    have hvmem : (sortedColIdxs zi col cc)[(o - 1).toNat] ∈ colIdxs zi col cc :=
      hperm.mem_iff.1 (List.getElem_mem holen)
    obtain ⟨i, x, hx, hmx, hxv, hfind, hilt⟩ := findIndex_of_colIdx_mem hvmem
    have hcond : (!intOptTruthy optO
        || decide (((sortedColIdxs zi col cc).length : Int) < jsOrInt optO 0)) = false := by
      have ho0 : o ≠ 0 := by omega
      rw [ho]
      simp only [intOptTruthy, jsOrInt, if_neg ho0, Bool.or_eq_false_iff]
      constructor
      · simp [ho0]
      · simp only [decide_eq_false_iff_not]
        omega
    have hstep : insertIntoOccupiedColumn cc zi col optO wpc
        = renumberColumn zi col 1 (jsSpliceInsert cc
            (jsFindIndex (fun c => matchesCell zi col c
              && ctrlIdxMatches (jsGetList (sortedColIdxs zi col cc) (jsOrInt optO 0 - 1)) c) cc) wpc) := by
      simp only [insertIntoOccupiedColumn]
      rw [if_neg (by rw [hcond]; exact Bool.false_ne_true)]
    have hfi : jsFindIndex (fun c => matchesCell zi col c
        && ctrlIdxMatches (jsGetList (sortedColIdxs zi col cc) (jsOrInt optO 0 - 1)) c) cc
        = (i : Int) := by
      rw [jsFindIndex, htarget, hfind]
    refine ⟨i, x, hx, hmx, ?_, ?_⟩
    · rw [List.getElem?_eq_getElem holen, hxv]
    · rw [hL2, hstep, hfi, jsSpliceInsert_of_nonneg cc i wpc (by omega)]

/-- Witness for claim C2, the claim's concrete scenario: a column holding
controlIndex values [1, 2] with order 1 requested places the new control at
controlIndex 1 and shifts the old controls to 2 and 3. -/
theorem claim2_insert_position_witness :
    ∃ L2, editLayout sampleLayout none none (some 1) sampleWebPart = Except.ok L2
      ∧ L2 = [pageMarker,
          setCtrlIdx (mkWebPartControl sampleWebPart (sampleCtrl 1)) 1,
          setCtrlIdx (sampleCtrl 1) 2,
          setCtrlIdx (sampleCtrl 2) 3]
      ∧ ctrlIdxOf (setCtrlIdx (mkWebPartControl sampleWebPart (sampleCtrl 1)) 1) = 1
      ∧ ctrlIdxOf (setCtrlIdx (sampleCtrl 1) 2) = 2
      ∧ ctrlIdxOf (setCtrlIdx (sampleCtrl 2) 3) = 3
      ∧ ∃ i a, (ensureDefaultSection sampleLayout)[i]? = some a
          ∧ matchesCell (some 1) (jsOrInt none 1) a = true
          ∧ (sortedColIdxs (some 1) (jsOrInt none 1) (ensureDefaultSection sampleLayout))[((1 : Int) - 1).toNat]?
              = some (ctrlIdxOf a)
          ∧ L2 = renumberColumn (some 1) (jsOrInt none 1) 1
              ((ensureDefaultSection sampleLayout).take i
                ++ mkWebPartControl sampleWebPart ((ensureDefaultSection sampleLayout).getD 1 emptyControl)
                  :: (ensureDefaultSection sampleLayout).drop i) := by
  refine ⟨_, rfl, rfl, rfl, rfl, rfl, ?_⟩
  exact (claim2_insert_position sampleLayout none none (some 1) sampleWebPart
    (some 1) 1 _ rfl rfl rfl rfl).2 1 rfl (by decide) (by decide)

/-- The element sitting at the join of an append-cons list. -/
theorem getElem?_append_cons_self (l1 l2 : List Control) (x : Control) :
    (l1 ++ x :: l2)[l1.length]? = some x := by
  rw [List.getElem?_append_right (Nat.le_refl _)]
  simp

/-- Claim C4: when the resolved anchor control has no truthy controlType (an
empty-column placeholder), the insert replaces it in place with the new
control, forces the new control's controlIndex to 1, ignores the order
option, and keeps the number of layout entries unchanged. -/
theorem claim4_empty_column_replace (cc0 : List Control)
    (optS optC optO : Option Int) (wp : WebPart) (zi : Option Int) (ai : Nat)
    (L2 : List Control)
    (hsec : resolveSection (ensureDefaultSection cc0) optS = Except.ok zi)
    (hcol : resolveColumn (ensureDefaultSection cc0) zi optC = Except.ok ai)
    (hocc : intOptTruthy ((ensureDefaultSection cc0).getD ai emptyControl).controlType = false)
    (hrun : editLayout cc0 optS optC optO wp = Except.ok L2) :
    (L2 = (ensureDefaultSection cc0).take ai
        ++ setCtrlIdx (mkWebPartControl wp ((ensureDefaultSection cc0).getD ai emptyControl)) 1
          :: (ensureDefaultSection cc0).drop (ai + 1))
    ∧ L2.length = (ensureDefaultSection cc0).length
    ∧ L2[ai]? = some (setCtrlIdx (mkWebPartControl wp ((ensureDefaultSection cc0).getD ai emptyControl)) 1)
    ∧ ctrlIdxOf (setCtrlIdx (mkWebPartControl wp ((ensureDefaultSection cc0).getD ai emptyControl)) 1) = 1
    ∧ ∀ optO2 : Option Int, editLayout cc0 optS optC optO2 wp = Except.ok L2 := by
  have heq := @editLayout_empty cc0 optS optC optO wp _ _ hsec hcol hocc
  rw [hrun] at heq
  have hL2 : L2 = jsReplaceAt (ensureDefaultSection cc0) ai
      (setCtrlIdx (mkWebPartControl wp ((ensureDefaultSection cc0).getD ai emptyControl)) 1) := by
    cases heq
    rfl
  obtain ⟨a, ha, hma, hgd, _⟩ := resolveColumn_ok_anchor hcol
  have hlt : ai < (ensureDefaultSection cc0).length := (List.getElem?_eq_some.1 ha).1
  refine ⟨hL2, ?_, ?_, ?_, ?_⟩
  · rw [hL2, jsReplaceAt]
    rw [List.length_append, List.length_cons, List.length_take, List.length_drop]
    omega
  · rw [hL2, jsReplaceAt]
    have htl : ((ensureDefaultSection cc0).take ai).length = ai := by
      rw [List.length_take]
      omega
    have hmid := getElem?_append_cons_self ((ensureDefaultSection cc0).take ai)
      ((ensureDefaultSection cc0).drop (ai + 1))
      (setCtrlIdx (mkWebPartControl wp ((ensureDefaultSection cc0).getD ai emptyControl)) 1)
    rw [htl] at hmid
    exact hmid
  · have hpos : ((ensureDefaultSection cc0).getD ai emptyControl).position.isSome := by
      rw [hgd]
      exact position_isSome_of_matchesCell hma
    have hpos2 : (mkWebPartControl wp ((ensureDefaultSection cc0).getD ai emptyControl)).position.isSome := by
      rw [mkWebPartControl]
      exact hpos
    exact ctrlIdxOf_setCtrlIdx _ 1 hpos2
  · intro optO2
    rw [@editLayout_empty cc0 optS optC optO2 wp _ _ hsec hcol hocc, hL2]

/-- Witness for claim C4: replacing the empty default-section placeholder of
a fresh page keeps the layout at 2 entries and puts the web part at
controlIndex 1 regardless of the order option. -/
theorem claim4_empty_column_replace_witness :
    ∃ L2, editLayout [pageMarker] none none (some 7) sampleWebPart = Except.ok L2
      ∧ L2.length = (ensureDefaultSection [pageMarker]).length
      ∧ ctrlIdxOf (setCtrlIdx (mkWebPartControl sampleWebPart ((ensureDefaultSection [pageMarker]).getD 0 emptyControl)) 1) = 1
      ∧ ∀ optO2 : Option Int, editLayout [pageMarker] none none optO2 sampleWebPart = Except.ok L2 := by
  refine ⟨_, rfl, ?_⟩
  have h := claim4_empty_column_replace [pageMarker] none none (some 7) sampleWebPart
    (some 1) 0 _ rfl rfl rfl rfl
  exact ⟨h.2.1, h.2.2.2.1, h.2.2.2.2⟩

/-- Counterexample to claim C3: for the single-entry layout [pageMarker] the
default-section step places the synthetic default section FIRST, not second -
the second entry is still the page-settings marker - and after the full
insert the second entry is the marker (controlType 0), not a web-part
control (controlType 3). -/
theorem claim3_counterexample :
    ((ensureDefaultSection [pageMarker]).length = 2
      ∧ (ensureDefaultSection [pageMarker])[1]? = some pageMarker
      ∧ pageMarker ≠ defaultSection)
    ∧ ∃ L2, editLayout [pageMarker] none none none sampleWebPart = Except.ok L2
      ∧ L2.length = 2
      ∧ L2[1]? = some pageMarker
      ∧ pageMarker.controlType = some 0
      ∧ pageMarker.controlType ≠ some 3 := by
  refine ⟨⟨rfl, rfl, ?_⟩, _, rfl, rfl, rfl, rfl, by decide⟩
  intro h
  have := congrArg Control.controlType h
  simp [pageMarker, defaultSection] at this

/-- Claim C3 (amended): for every single-entry layout the default-section
step yields exactly 2 entries with the synthetic default section as the
FIRST entry; and inserting a web part into [pageMarker] with no options
yields a 2-entry layout whose FIRST entry is a web-part control
(controlType 3) positioned at zoneIndex 1, sectionIndex 1, controlIndex 1,
the marker remaining the second entry. -/
theorem claim3_default_section_amended :
    (∀ c : Control, ensureDefaultSection [c] = [defaultSection, c])
    ∧ ∀ wp : WebPart, ∃ L2, editLayout [pageMarker] none none none wp = Except.ok L2
      ∧ L2.length = 2
      ∧ L2[0]? = some (setCtrlIdx (mkWebPartControl wp defaultSection) 1)
      ∧ (setCtrlIdx (mkWebPartControl wp defaultSection) 1).controlType = some 3
      ∧ (setCtrlIdx (mkWebPartControl wp defaultSection) 1).position
          = some { zoneIndex := 1, sectionIndex := 1, controlIndex := 1,
                   sectionFactor := some 12, layoutIndex := some 1 }
      ∧ L2[1]? = some pageMarker := by
  constructor
  · intro c
    rfl
  · intro wp
    exact ⟨_, rfl, rfl, rfl, rfl, rfl, rfl⟩

/-- Claim C5: section resolution collects the distinct zoneIndex values of
positioned controls sorted ascending, defaults an unset section to the count
of distinct sections, fails with the invalid-section error exactly when the
requested section exceeds that count, and otherwise returns the zoneIndex at
rank requestedSection - 1. -/
theorem claim5_resolve_section (cc : List Control) :
    ((zoneIndicesOf cc).Sorted (· ≤ ·)
      ∧ (zoneIndicesOf cc).Nodup
      ∧ (∀ v : Int, v ∈ zoneIndicesOf cc
          ↔ ∃ c ∈ cc, ∃ p, c.position = some p ∧ p.zoneIndex = v))
    ∧ resolveSection cc none
        = Except.ok (jsGetList (zoneIndicesOf cc) (((zoneIndicesOf cc).length : Int) - 1))
    ∧ (0 < (zoneIndicesOf cc).length →
        resolveSection cc none = Except.ok (zoneIndicesOf cc).getLast?)
    ∧ ∀ s : Int, 1 ≤ s →
        (((∃ e, resolveSection cc (some s) = Except.error e)
            ↔ ((zoneIndicesOf cc).length : Int) < s)
          ∧ (((zoneIndicesOf cc).length : Int) < s →
              resolveSection cc (some s) = Except.error (EditorError.invalidSection s))
          ∧ (s ≤ ((zoneIndicesOf cc).length : Int) →
              ∃ v, jsGetList (zoneIndicesOf cc) (s - 1) = some v
                ∧ resolveSection cc (some s) = Except.ok (some v))) := by
  have hdefault : resolveSection cc none
      = Except.ok (jsGetList (zoneIndicesOf cc) (((zoneIndicesOf cc).length : Int) - 1)) := by
    simp [resolveSection, jsOrInt]
  refine ⟨⟨List.sorted_insertionSort _ _, ?_, ?_⟩, hdefault, ?_, ?_⟩
  · exact ((List.perm_insertionSort _ _).nodup_iff).2 (nodup_dedupFirstAux _ _)
  · intro v
    rw [zoneIndicesOf, List.mem_insertionSort, dedupFirst, mem_dedupFirstAux]
    simp [List.mem_filterMap, Option.map_eq_some']
  · intro hpos
    rw [hdefault]
    have h1 : ¬(((zoneIndicesOf cc).length : Int) - 1 < 0) := by omega
    rw [jsGetList, if_neg h1, List.getLast?_eq_getElem?]
    have h2 : (((zoneIndicesOf cc).length : Int) - 1).toNat = (zoneIndicesOf cc).length - 1 := by
      omega
    rw [h2]
  · intro s hs
    have hs0 : s ≠ 0 := by omega
    by_cases hlt : ((zoneIndicesOf cc).length : Int) < s
    · refine ⟨?_, fun _ => ?_, fun hle => ?_⟩
      · simp only [resolveSection, jsOrInt, if_neg hs0, if_pos hlt]
        exact ⟨fun _ => hlt, fun _ => ⟨EditorError.invalidSection s, rfl⟩⟩
      · simp only [resolveSection, jsOrInt, if_neg hs0, if_pos hlt]
      · omega
    · refine ⟨?_, fun h => absurd h hlt, fun hle => ?_⟩
      · simp only [resolveSection, jsOrInt, if_neg hs0, if_neg hlt]
        constructor
        · intro h
          obtain ⟨e, he⟩ := h
          cases he
        · intro h
          exact absurd h hlt
      · have h1 : ¬(s - 1 < 0) := by omega
        have h2 : (s - 1).toNat < (zoneIndicesOf cc).length := by omega
        refine ⟨(zoneIndicesOf cc)[(s - 1).toNat], ?_, ?_⟩
        · rw [jsGetList, if_neg h1]
          exact List.getElem?_eq_getElem h2
        · simp only [resolveSection, jsOrInt, if_neg hs0, if_neg hlt]
          rw [jsGetList, if_neg h1, List.getElem?_eq_getElem h2]

/-- Witness for claim C5 at the sample layout: one distinct section, an
unset section resolves to it, and requesting section 2 fails with the
invalid-section error. -/
theorem claim5_resolve_section_witness :
    (zoneIndicesOf sampleLayout).Nodup
    ∧ resolveSection sampleLayout none = Except.ok ((zoneIndicesOf sampleLayout).getLast?)
    ∧ resolveSection sampleLayout (some 2) = Except.error (EditorError.invalidSection 2) := by
  have h := claim5_resolve_section sampleLayout
  exact ⟨h.1.2.1, h.2.2.1 (by decide), (h.2.2.2 2 (by decide)).2.1 (by decide)⟩

/-- Claim C6: column resolution defaults the column option to 1, locates the
first control whose position carries the resolved zoneIndex and the
requested sectionIndex, and fails - with a descriptive error carrying the
offending column option value - exactly when no such control exists. -/
theorem claim6_resolve_column (cc : List Control) (zi : Option Int) (optC : Option Int) :
    (optC = none → jsOrInt optC 1 = 1)
    ∧ (resolveColumn cc zi optC = Except.error (EditorError.invalidColumn optC)
        ↔ ∀ c ∈ cc, matchesCell zi (jsOrInt optC 1) c = false)
    ∧ (∀ e, resolveColumn cc zi optC = Except.error e → e = EditorError.invalidColumn optC)
    ∧ (∀ i, resolveColumn cc zi optC = Except.ok i →
        ∃ a, cc[i]? = some a ∧ matchesCell zi (jsOrInt optC 1) a = true
          ∧ ∀ j, j < i → ∀ b, cc[j]? = some b → matchesCell zi (jsOrInt optC 1) b = false) := by
  refine ⟨fun h => by rw [h]; rfl, ?_, ?_, ?_⟩
  · constructor
    · intro h
      rw [← jsFindIndexNat_eq_none_iff (matchesCell zi (jsOrInt optC 1)) cc]
      simp only [resolveColumn] at h
      cases hf : jsFindIndexNat (matchesCell zi (jsOrInt optC 1)) cc with
      | none => rfl
      | some i =>
        rw [hf] at h
        cases h
    · intro h
      have hnone := (jsFindIndexNat_eq_none_iff (matchesCell zi (jsOrInt optC 1)) cc).2 h
      simp only [resolveColumn]
      rw [hnone]
  · intro e he
    simp only [resolveColumn] at he
    cases hf : jsFindIndexNat (matchesCell zi (jsOrInt optC 1)) cc with
    | none =>
      rw [hf] at he
      cases he
      rfl
    | some i =>
      rw [hf] at he
      cases he
  · intro i hi
    simp only [resolveColumn] at hi
    cases hf : jsFindIndexNat (matchesCell zi (jsOrInt optC 1)) cc with
    | none =>
      rw [hf] at hi
      cases hi
    | some i0 =>
      rw [hf] at hi
      cases hi
      obtain ⟨x, hx, hpx, hfirst⟩ := jsFindIndexNat_some_spec hf
      exact ⟨x, hx, hpx, hfirst⟩

/-- Witness for claim C6: in the sample layout an unset column resolves to
column 1 and finds the first matching control at index 1, while column 2
fails with the invalid-column error carrying the raw option value. -/
theorem claim6_resolve_column_witness :
    jsOrInt (none : Option Int) 1 = 1
    ∧ resolveColumn sampleLayout (some 1) (some 2) = Except.error (EditorError.invalidColumn (some 2))
    ∧ (∃ a, sampleLayout[1]? = some a ∧ matchesCell (some 1) (jsOrInt none 1) a = true
        ∧ ∀ j, j < 1 → ∀ b, sampleLayout[j]? = some b → matchesCell (some 1) (jsOrInt none 1) b = false) := by
  have h := claim6_resolve_column sampleLayout (some 1) none
  have h2 := claim6_resolve_column sampleLayout (some 1) (some 2)
  refine ⟨h.1 rfl, ?_, h.2.2.2 1 rfl⟩
  exact (h2.2.1).2 (by decide)

/-! Part: The surrounding command: page name, validation, properties, requests -/

/-- Whether the character sequence `needle` occurs inside `hay`
(`String.prototype.indexOf(...) >= 0`). -/
def containsSeq (needle : List Char) : List Char → Bool
  | [] => needle.isEmpty
  | x :: xs => needle.isPrefixOf (x :: xs) || containsSeq needle xs

/-- Source: `if (pageName.indexOf(aspx) < 0) pageFullName += aspx` - the
page name gets the .aspx extension appended unless it already occurs
anywhere in the name. -/
def pageFullName (pageName : String) : String :=
  if containsSeq (".aspx").toList pageName.toList then pageName
  else pageName ++ ".aspx"

/-- Assignment of one property on a JavaScript object (overwrite in place
when the key already exists, append otherwise). -/
def setProp (k : String) (v : JsValue) : List (String × JsValue) → List (String × JsValue)
  | [] => [(k, v)]
  | (k0, v0) :: rest => if k0 = k then (k, v) :: rest else (k0, v0) :: setProp k v rest

/-- The command's private `extend` helper: shallow copy of the source
object's own properties onto the target, key by key, source winning. -/
def extendObj (target source : List (String × JsValue)) : List (String × JsValue) :=
  source.foldl (fun t kv => setProp kv.1 kv.2 t) target

/-- Lookup of a property on a JavaScript object (undefined when absent). -/
def getProp (k : String) : List (String × JsValue) → Option JsValue
  | [] => none
  | (k0, v0) :: rest => if k0 = k then some v0 else getProp k rest

/-- The option set of the command. pageName and webUrl are required, the
rest optional; section, column and order are numbers. -/
structure Options where
  pageName : String
  webUrl : String
  standardWebPart : Option String
  webPartId : Option String
  webPartProperties : Option String
  webPartData : Option String
  sectionOpt : Option Int
  columnOpt : Option Int
  orderOpt : Option Int

/-- The errors `validate` can report. Each constructor carries the values
the source interpolates into its message; the taxonomy names follow the
checks in source order. malformedProps and malformedData are the
MalformedJsonPayload cases for webPartProperties and webPartData. -/
inductive ValidationError where
  | specifyEither : ValidationError
  | specifyNotBoth : ValidationError
  | invalidGuid (v : String) : ValidationError
  | invalidStandardType (v : String) : ValidationError
  | propsAndData : ValidationError
  | malformedProps (input : String) : ValidationError
  | malformedData (input : String) : ValidationError
  | sectionTooSmall : ValidationError
  | columnTooSmall : ValidationError
  | badUrl (msg : String) : ValidationError
deriving DecidableEq

/-- The command's `validate`, check for check in source order. The guid
test, standard-web-part-type test and SharePoint-URL test live in external
utilities and are passed in as functions g, t and u (u returns none when the
URL is accepted); JSON.parse is passed in as `parse` (none = throw). The
source's isNumber test is always true here because the options are typed
numbers. -/
def validate (g t : String → Bool) (u : String → Option ValidationError)
    (parse : String → Option JsValue) (opts : Options) : Option ValidationError :=
  if !strOptTruthy opts.standardWebPart && !strOptTruthy opts.webPartId then
    some ValidationError.specifyEither
  else if strOptTruthy opts.standardWebPart && strOptTruthy opts.webPartId then
    some ValidationError.specifyNotBoth
  else if strOptTruthy opts.webPartId && !g (opts.webPartId.getD ("")) then
    some (ValidationError.invalidGuid (opts.webPartId.getD ("")))
  else if strOptTruthy opts.standardWebPart && !t (opts.standardWebPart.getD ("")) then
    some (ValidationError.invalidStandardType (opts.standardWebPart.getD ("")))
  else if strOptTruthy opts.webPartProperties && strOptTruthy opts.webPartData then
    some ValidationError.propsAndData
  else if strOptTruthy opts.webPartProperties
      && (parse (opts.webPartProperties.getD (""))).isNone then
    some (ValidationError.malformedProps (opts.webPartProperties.getD ("")))
  else if strOptTruthy opts.webPartData
      && (parse (opts.webPartData.getD (""))).isNone then
    some (ValidationError.malformedData (opts.webPartData.getD ("")))
  else if intOptTruthy opts.sectionOpt && decide (jsOrInt opts.sectionOpt 0 < 1) then
    some ValidationError.sectionTooSmall
  else if intOptTruthy opts.columnOpt && decide (jsOrInt opts.columnOpt 0 < 1) then
    some ValidationError.columnTooSmall
  else u opts.webUrl

/-- `setWebPartProperties`: merge the parsed webPartProperties option into
webPartData.properties (a parse failure is swallowed by the empty catch
block), then merge the parsed webPartData option into webPartData and adopt
its instanceId as the web part id - this second JSON.parse has no catch, so
its failure throws (modelled as the error case). Non-object parses leave the
merge target unchanged (extend copies no properties from them). -/
def setWebPartProperties (parse : String → Option JsValue) (wp : WebPart)
    (props dataOpt : Option String) : Except Unit WebPart :=
  let wp1 :=
    if strOptTruthy props then
      match parse (props.getD ("")) with
      | some (JsValue.obj fields) =>
        let oldProps : List (String × JsValue) :=
          match getProp ("properties") wp.webPartData with
          | some (JsValue.obj fs) => fs
          | _ => []
        let merged : JsValue := JsValue.obj (extendObj oldProps fields)
        { wp with webPartData := setProp ("properties") merged wp.webPartData }
      | some _ => wp
      | none => wp
    else wp
  if strOptTruthy dataOpt then
    match parse (dataOpt.getD ("")) with
    | some (JsValue.obj fields) =>
      let d := extendObj wp1.webPartData fields
      Except.ok { wp1 with webPartData := d, id := getProp ("instanceId") d }
    | some _ => Except.ok wp1
    | none => Except.error ()
  else Except.ok wp1

/-- The kinds of HTTP requests the command issues. -/
inductive RequestKind where
  | getPage : RequestKind
  | checkoutPage : RequestKind
  | getWebParts : RequestKind
  | savePage : RequestKind
deriving DecidableEq

/-- One HTTP request: its kind, the site URL, the page name embedded in the
URL (none for the site-wide web part catalog call), and the posted canvas
for savepage. -/
structure Request where
  kind : RequestKind
  webUrl : String
  page : Option String
  body : Option (List Control)

/-- The GetByUrl response the command starts from: the parsed CanvasContent1
(none when the field is empty, in which case the single page-settings marker
is used) and the checkout flag. -/
structure PageResponse where
  canvasContent : Option (List Control)
  isCheckedOut : Bool

/-- The failures of the command action chain: a layout editor rejection, a
web part catalog lookup failure, or the uncaught JSON.parse throw on
webPartData inside setWebPartProperties. -/
inductive CmdError where
  | editor (e : EditorError) : CmdError
  | webPartLookup (msg : String) : CmdError
  | dataParse : CmdError
deriving DecidableEq

/-- The page-scoped requests that open the chain: the GetByUrl fetch, then a
checkoutpage POST unless the page is already checked out by the user. -/
def pageRequests (webUrl fullName : String) (isCheckedOut : Bool) : List Request :=
  { kind := RequestKind.getPage, webUrl := webUrl, page := some fullName, body := none } ::
    (if isCheckedOut then []
     else [{ kind := RequestKind.checkoutPage, webUrl := webUrl, page := some fullName,
             body := none }])

/-- The commandAction promise chain: fetch the page (and check it out when
needed), fetch the web part catalog, resolve the web part (its outcome is
the environment-supplied wpRes), apply setWebPartProperties, edit the
layout, and only on success issue the savepage POST with the new canvas.
Returns the requests issued in order together with the outcome; every
rejection short-circuits to the shared catch handler. -/
def commandActionModel (parse : String → Option JsValue) (opts : Options)
    (page : PageResponse) (wpRes : Except String WebPart) :
    List Request × Except CmdError (List Control) :=
  let fullName := pageFullName opts.pageName
  let reqs1 := pageRequests opts.webUrl fullName page.isCheckedOut
    ++ [{ kind := RequestKind.getWebParts, webUrl := opts.webUrl, page := none, body := none }]
  let cc0 := page.canvasContent.getD [pageMarker]
  match wpRes with
  | Except.error msg => (reqs1, Except.error (CmdError.webPartLookup msg))
  | Except.ok wp =>
    match setWebPartProperties parse wp opts.webPartProperties opts.webPartData with
    | Except.error _ => (reqs1, Except.error CmdError.dataParse)
    | Except.ok wp2 =>
      match editLayout cc0 opts.sectionOpt opts.columnOpt opts.orderOpt wp2 with
      | Except.error e => (reqs1, Except.error (CmdError.editor e))
      | Except.ok L2 =>
        (reqs1 ++ [{ kind := RequestKind.savePage, webUrl := opts.webUrl,
                     page := some fullName, body := some L2 }],
         Except.ok L2)

/-- A full invocation fails either in validation or in the command action. -/
inductive InvokeError where
  | validation (e : ValidationError) : InvokeError
  | command (e : CmdError) : InvokeError
deriving DecidableEq

/-- Modelled from the spec: the Command Dispatcher (shared CLI framework
code outside this repository's sources) parses the CLI arguments into an
options object, runs the command's validate, and only invokes commandAction
when validation succeeds; a validation failure is reported to the caller
and nothing is executed or retried. -/
def invokeCommand (g t : String → Bool) (u : String → Option ValidationError)
    (parse : String → Option JsValue) (opts : Options)
    (page : PageResponse) (wpRes : Except String WebPart) :
    List Request × Except InvokeError (List Control) :=
  match validate g t u parse opts with
  | some e => ([], Except.error (InvokeError.validation e))
  | none =>
    let r := commandActionModel parse opts page wpRes
    (r.1, r.2.mapError InvokeError.command)

theorem pageRequests_no_save (w f : String) (b : Bool) (r : Request)
    (hr : r ∈ pageRequests w f b
      ++ [{ kind := RequestKind.getWebParts, webUrl := w, page := none, body := none }]) :
    r.kind ≠ RequestKind.savePage := by
  cases b with
  | false =>
    simp only [pageRequests, Bool.false_eq_true, if_false, List.cons_append,
      List.nil_append, List.mem_cons, List.not_mem_nil, or_false] at hr
    rcases hr with h | h | h <;> rw [h] <;> exact fun hc => RequestKind.noConfusion hc
  | true =>
    simp only [pageRequests, if_true, List.cons_append, List.nil_append,
      List.mem_cons, List.not_mem_nil, or_false] at hr
    rcases hr with h | h <;> rw [h] <;> exact fun hc => RequestKind.noConfusion hc

/-- Claim C7: when the layout editing step rejects with an invalid-section
or invalid-column error, the savepage POST is never issued - the request
list of the invocation contains no savePage request, so the stored page
state is unchanged on error. -/
theorem claim7_no_save_on_editor_error (parse : String → Option JsValue)
    (opts : Options) (page : PageResponse) (wpRes : Except String WebPart)
    (e : EditorError)
    (h : (commandActionModel parse opts page wpRes).2 = Except.error (CmdError.editor e)) :
    ∀ r ∈ (commandActionModel parse opts page wpRes).1, r.kind ≠ RequestKind.savePage := by
  intro r hr
  cases wpRes with
  | error msg =>
    simp [commandActionModel] at h
  | ok wp =>
    cases hswp : setWebPartProperties parse wp opts.webPartProperties opts.webPartData with
    | error u =>
      simp [commandActionModel, hswp] at h
    | ok wp2 =>
      cases hedit : editLayout (page.canvasContent.getD [pageMarker]) opts.sectionOpt
          opts.columnOpt opts.orderOpt wp2 with
      | error e2 =>
        simp only [commandActionModel, hswp, hedit] at hr
        exact pageRequests_no_save _ _ _ r hr
      | ok L2 =>
        simp [commandActionModel, hswp, hedit] at h

/-- Witness for claim C7: requesting section 5 of the sample layout makes
the editor reject, and the issued requests contain no savepage POST. -/
theorem claim7_no_save_on_editor_error_witness :
    (commandActionModel (fun _ => some JsValue.null)
        { pageName := "home", webUrl := "https://x", standardWebPart := some ("text"),
          webPartId := none, webPartProperties := none, webPartData := none,
          sectionOpt := some 5, columnOpt := none, orderOpt := none }
        { canvasContent := some sampleLayout, isCheckedOut := true }
        (Except.ok sampleWebPart)).2
      = Except.error (CmdError.editor (EditorError.invalidSection 5))
    ∧ ∀ r ∈ (commandActionModel (fun _ => some JsValue.null)
        { pageName := "home", webUrl := "https://x", standardWebPart := some ("text"),
          webPartId := none, webPartProperties := none, webPartData := none,
          sectionOpt := some 5, columnOpt := none, orderOpt := none }
        { canvasContent := some sampleLayout, isCheckedOut := true }
        (Except.ok sampleWebPart)).1, r.kind ≠ RequestKind.savePage := by
  refine ⟨rfl, ?_⟩
  exact claim7_no_save_on_editor_error _ _ _ _ (EditorError.invalidSection 5) rfl

theorem strOptTruthy_of_ne {s : String} (h : s ≠ "") : strOptTruthy (some s) = true := by
  have h2 : s.isEmpty = false := by
    cases he : s.isEmpty with
    | false => rfl
    | true => exact absurd ((String.isEmpty_iff s).1 he) h
  show (!s.isEmpty) = true
  rw [h2]
  rfl

/-- Claim C8: an invocation whose caller-supplied webPartProperties or
webPartData string fails to parse as JSON fails with the matching
malformed-JSON-payload validation error: validation rejects it before the
command action runs, so no request is issued and nothing is retried. The
hypotheses state that the checks preceding the JSON checks in validate
pass (a single valid web part identifier, not both payload options). -/
theorem claim8_malformed_json_terminal (g t : String → Bool)
    (u : String → Option ValidationError) (parse : String → Option JsValue)
    (opts : Options) (page : PageResponse) (wpRes : Except String WebPart)
    (hid1 : strOptTruthy opts.standardWebPart = true ∨ strOptTruthy opts.webPartId = true)
    (hid2 : ¬(strOptTruthy opts.standardWebPart = true ∧ strOptTruthy opts.webPartId = true))
    (hguid : strOptTruthy opts.webPartId = true → g (opts.webPartId.getD ("")) = true)
    (htype : strOptTruthy opts.standardWebPart = true → t (opts.standardWebPart.getD ("")) = true)
    (hboth : ¬(strOptTruthy opts.webPartProperties = true ∧ strOptTruthy opts.webPartData = true)) :
    (∀ s, opts.webPartProperties = some s → s ≠ "" → parse s = none →
      invokeCommand g t u parse opts page wpRes
        = ([], Except.error (InvokeError.validation (ValidationError.malformedProps s))))
    ∧ (∀ s, opts.webPartData = some s → s ≠ "" → parse s = none →
        (∀ s2, opts.webPartProperties = some s2 → s2 ≠ "" → (parse s2).isSome = true) →
        invokeCommand g t u parse opts page wpRes
          = ([], Except.error (InvokeError.validation (ValidationError.malformedData s)))) := by
  have hc1 : (!strOptTruthy opts.standardWebPart && !strOptTruthy opts.webPartId) = false := by
    rcases hid1 with h | h <;> rw [h] <;> simp
  have hc2 : (strOptTruthy opts.standardWebPart && strOptTruthy opts.webPartId) = false := by
    cases h1 : strOptTruthy opts.standardWebPart with
    | false => rfl
    | true =>
      cases h2 : strOptTruthy opts.webPartId with
      | false => rfl
      | true => exact absurd ⟨h1, h2⟩ hid2
  have hc3 : (strOptTruthy opts.webPartId && !g (opts.webPartId.getD (""))) = false := by
    cases h2 : strOptTruthy opts.webPartId with
    | false => rfl
    | true => rw [hguid h2]; rfl
  have hc4 : (strOptTruthy opts.standardWebPart
      && !t (opts.standardWebPart.getD (""))) = false := by
    cases h1 : strOptTruthy opts.standardWebPart with
    | false => rfl
    | true => rw [htype h1]; rfl
  have hc5 : (strOptTruthy opts.webPartProperties && strOptTruthy opts.webPartData) = false := by
    cases h1 : strOptTruthy opts.webPartProperties with
    | false => rfl
    | true =>
      cases h2 : strOptTruthy opts.webPartData with
      | false => rfl
      | true => exact absurd ⟨h1, h2⟩ hboth
  constructor
  · intro s hs hne hparse
    have hsp : strOptTruthy opts.webPartProperties = true := by
      rw [hs]
      exact strOptTruthy_of_ne hne
    have hgd : opts.webPartProperties.getD ("") = s := by
      rw [hs]
      rfl
    have hdata : strOptTruthy opts.webPartData = false := by
      cases hd : strOptTruthy opts.webPartData with
      | false => rfl
      | true =>
        rw [hsp, hd] at hc5
        cases hc5
    have hval : validate g t u parse opts
        = some (ValidationError.malformedProps s) := by
      simp [validate, hc1, hc2, hc3, hc4, hc5, hgd, hsp, hparse, hdata]
    simp only [invokeCommand, hval]
  · intro s hs hne hparse hprops
    have hsd : strOptTruthy opts.webPartData = true := by
      rw [hs]
      exact strOptTruthy_of_ne hne
    have hgd : opts.webPartData.getD ("") = s := by
      rw [hs]
      rfl
    have hc6 : (strOptTruthy opts.webPartProperties
        && (parse (opts.webPartProperties.getD (""))).isNone) = false := by
      cases hp : opts.webPartProperties with
      | none => rfl
      | some s2 =>
        by_cases h2 : s2 = ""
        · rw [h2]
          rfl
        · have h3 := hprops s2 hp h2
          cases h4 : parse s2 with
          | none =>
            rw [h4] at h3
            cases h3
          | some j =>
            have h5 : (parse ((some s2).getD (""))) = some j := h4
            rw [h5]
            simp
    have hpf : strOptTruthy opts.webPartProperties = false := by
      cases hd : strOptTruthy opts.webPartProperties with
      | false => rfl
      | true =>
        rw [hd, hsd] at hc5
        cases hc5
    have hval : validate g t u parse opts
        = some (ValidationError.malformedData s) := by
      simp [validate, hc1, hc2, hc3, hc4, hc5, hc6, hgd, hsd, hparse, hpf]
    simp only [invokeCommand, hval]

/-- Witness for claim C8: a webPartProperties string the JSON parser rejects
makes the invocation fail with the malformed-properties validation error,
with no request issued. -/
theorem claim8_malformed_json_terminal_witness :
    invokeCommand (fun _ => true) (fun _ => true) (fun _ => none) (fun _ => none)
        { pageName := "home", webUrl := "https://x", standardWebPart := some ("text"),
          webPartId := none, webPartProperties := some ("not json"), webPartData := none,
          sectionOpt := none, columnOpt := none, orderOpt := none }
        { canvasContent := none, isCheckedOut := true } (Except.ok sampleWebPart)
      = ([], Except.error (InvokeError.validation
          (ValidationError.malformedProps ("not json")))) := by
  exact (claim8_malformed_json_terminal (fun _ => true) (fun _ => true) (fun _ => none)
    (fun _ => none)
    { pageName := "home", webUrl := "https://x", standardWebPart := some ("text"),
      webPartId := none, webPartProperties := some ("not json"), webPartData := none,
      sectionOpt := none, columnOpt := none, orderOpt := none }
    { canvasContent := none, isCheckedOut := true } (Except.ok sampleWebPart)
    (Or.inl rfl) (fun h => Bool.false_ne_true h.2) (fun h => absurd h (by decide))
    (fun _ => rfl) (fun h => Bool.false_ne_true h.2)).1 ("not json") rfl (by decide) rfl

/-- Claim C9: a section or column value of 0 passes validation (both checks
test the option for truthiness, and 0 is falsy for numbers) and is treated
exactly as an unspecified option: validation is unchanged by replacing the
zeros with unset options, section 0 resolves like an unset section (the
last section), column 0 defaults to column 1, and the layout edit gives
the same successful results. -/
theorem claim9_zero_treated_as_unset (g t : String → Bool)
    (u : String → Option ValidationError) (parse : String → Option JsValue)
    (opts : Options) (cc : List Control) (zi : Option Int)
    (optC optO : Option Int) (wp : WebPart) :
    (validate g t u parse { opts with sectionOpt := some 0, columnOpt := some 0 }
        = validate g t u parse { opts with sectionOpt := none, columnOpt := none })
    ∧ resolveSection cc (some 0) = resolveSection cc none
    ∧ jsOrInt (some 0) 1 = 1
    ∧ (∀ i, resolveColumn cc zi (some 0) = Except.ok i ↔ resolveColumn cc zi none = Except.ok i)
    ∧ editLayout cc (some 0) optC optO wp = editLayout cc none optC optO wp
    ∧ (∀ s2 L2, editLayout cc s2 (some 0) optO wp = Except.ok L2
        ↔ editLayout cc s2 none optO wp = Except.ok L2) := by
  refine ⟨?_, rfl, rfl, ?_, rfl, ?_⟩
  · simp [validate, intOptTruthy, jsOrInt]
  · intro i
    simp only [resolveColumn, jsOrInt]
    cases hf : jsFindIndexNat (matchesCell zi 1) cc with
    | none => simp [hf]
    | some idx => simp [hf]
  · intro s2 L2
    simp only [editLayout]
    cases hrs : resolveSection (ensureDefaultSection cc) s2 with
    | error e => simp [hrs]
    | ok zi2 =>
      simp only [hrs]
      cases hf : jsFindIndexNat (matchesCell zi2 1) (ensureDefaultSection cc) with
      | none =>
        have hL : resolveColumn (ensureDefaultSection cc) zi2 (some 0)
            = Except.error (EditorError.invalidColumn (some 0)) := by
          simp [resolveColumn, jsOrInt, hf]
        have hR : resolveColumn (ensureDefaultSection cc) zi2 none
            = Except.error (EditorError.invalidColumn none) := by
          simp [resolveColumn, jsOrInt, hf]
        rw [hL, hR]
        simp
      | some idx =>
        have hL : resolveColumn (ensureDefaultSection cc) zi2 (some 0) = Except.ok idx := by
          simp [resolveColumn, jsOrInt, hf]
        have hR : resolveColumn (ensureDefaultSection cc) zi2 none = Except.ok idx := by
          simp [resolveColumn, jsOrInt, hf]
        rw [hL, hR]
        simp [jsOrInt]

/-- Witness for claim C9: on the sample layout, section 0 and column 0
behave exactly like unset options. -/
theorem claim9_zero_treated_as_unset_witness :
    resolveSection sampleLayout (some 0) = resolveSection sampleLayout none
    ∧ editLayout sampleLayout (some 0) none none sampleWebPart
        = editLayout sampleLayout none none none sampleWebPart := by
  have h := claim9_zero_treated_as_unset (fun _ => true) (fun _ => true) (fun _ => none)
    (fun _ => none)
    { pageName := "home", webUrl := "https://x", standardWebPart := some ("text"),
      webPartId := none, webPartProperties := none, webPartData := none,
      sectionOpt := none, columnOpt := none, orderOpt := none }
    sampleLayout (some 1) none none sampleWebPart
  exact ⟨h.2.1, h.2.2.2.2.1⟩

theorem reqs_page_name (w f : String) (b : Bool) (r : Request)
    (hr : r ∈ pageRequests w f b
      ++ [{ kind := RequestKind.getWebParts, webUrl := w, page := none, body := none }])
    (hk : r.kind ≠ RequestKind.getWebParts) : r.page = some f := by
  cases b with
  | false =>
    simp only [pageRequests, Bool.false_eq_true, if_false, List.cons_append,
      List.nil_append, List.mem_cons, List.not_mem_nil, or_false] at hr
    rcases hr with h | h | h
    · rw [h]
    · rw [h]
    · rw [h] at hk
      exact absurd rfl hk
  | true =>
    simp only [pageRequests, if_true, List.cons_append, List.nil_append,
      List.mem_cons, List.not_mem_nil, or_false] at hr
    rcases hr with h | h
    · rw [h]
    · rw [h] at hk
      exact absurd rfl hk

/-- Claim C10: a pageName without the .aspx substring gets .aspx appended
before any request is built, a pageName containing .aspx anywhere is used
unchanged, and the page fetch, the checkout and the save all embed the same
resolved full name. -/
theorem claim10_page_name_resolution (pageName : String) (parse : String → Option JsValue)
    (opts : Options) (page : PageResponse) (wpRes : Except String WebPart) :
    (containsSeq (".aspx").toList pageName.toList = false →
      pageFullName pageName = pageName ++ ".aspx")
    ∧ (containsSeq (".aspx").toList pageName.toList = true →
      pageFullName pageName = pageName)
    ∧ ∀ r ∈ (commandActionModel parse opts page wpRes).1,
        r.kind ≠ RequestKind.getWebParts → r.page = some (pageFullName opts.pageName) := by
  refine ⟨?_, ?_, ?_⟩
  · intro h
    rw [pageFullName, if_neg]
    rw [h]
    exact Bool.false_ne_true
  · intro h
    rw [pageFullName, if_pos h]
  · intro r hr hk
    cases wpRes with
    | error msg =>
      simp only [commandActionModel] at hr
      exact reqs_page_name _ _ _ r hr hk
    | ok wp =>
      cases hswp : setWebPartProperties parse wp opts.webPartProperties opts.webPartData with
      | error u2 =>
        simp only [commandActionModel, hswp] at hr
        exact reqs_page_name _ _ _ r hr hk
      | ok wp2 =>
        cases hedit : editLayout (page.canvasContent.getD [pageMarker]) opts.sectionOpt
            opts.columnOpt opts.orderOpt wp2 with
        | error e2 =>
          simp only [commandActionModel, hswp, hedit] at hr
          exact reqs_page_name _ _ _ r hr hk
        | ok L2 =>
          simp only [commandActionModel, hswp, hedit, List.append_assoc,
            List.mem_append, List.mem_cons, List.not_mem_nil, or_false] at hr
          rcases hr with hr | hr | hr
          · exact reqs_page_name _ _ _ r (List.mem_append_left _ hr) hk
          · rw [hr] at hk
            exact absurd rfl hk
          · rw [hr]

/-- Witness for claim C10: a name without .aspx gets the extension appended,
and a name containing .aspx in the middle is left unchanged. -/
theorem claim10_page_name_resolution_witness :
    pageFullName ("home") = "home" ++ ".aspx"
    ∧ pageFullName ("a.aspx.old") = "a.aspx.old" := by
  have h := claim10_page_name_resolution ("home") (fun _ => none)
    { pageName := "home", webUrl := "https://x", standardWebPart := some ("text"),
      webPartId := none, webPartProperties := none, webPartData := none,
      sectionOpt := none, columnOpt := none, orderOpt := none }
    { canvasContent := none, isCheckedOut := true } (Except.ok sampleWebPart)
  have h2 := claim10_page_name_resolution ("a.aspx.old") (fun _ => none)
    { pageName := "home", webUrl := "https://x", standardWebPart := some ("text"),
      webPartId := none, webPartProperties := none, webPartData := none,
      sectionOpt := none, columnOpt := none, orderOpt := none }
    { canvasContent := none, isCheckedOut := true } (Except.ok sampleWebPart)
  exact ⟨h.1 (by decide), h2.2.1 (by decide)⟩
